import Mathlib

/-!
Verification of the `all` combinator of the js-promises-workshop repository.

The source function (src/unnamed/part_001) is:

  function all(p1,p2){
      return new Promise(function (fulfill, reject) {
          let counter = 0;
          let result = [];
          p1.then((res)=>{
              counter++;
              result.push(res);
              if(counter>=2) fulfill(result);
          });
          p2.then((res)=>{
              counter++;
              result.push(res);
              if(counter>=2) fulfill(result);
          });
      });
  }

We embed the combinator over a turn-based model of the host promise
scheduler: each input promise is described by a settlement schedule
(`Settle`); a one-argument `p.then(cb)` registration runs `cb` on the
turn strictly after the input's settlement turn (host microtask
deferral), and when two callbacks become runnable on the same turn they
run in listener-registration order.  A rejection of an input enqueues
nothing for the combinator, because the source passes no second
argument to `then`.  The JS calling convention (missing arguments are
`undefined`, and `undefined.then` throws a TypeError that the Promise
constructor catches and converts into a rejection of the new promise)
is modelled by `allJS`.
-/

namespace Workshop

/-- Rejection reasons observable in the model: an error value carried by
an input's rejection, or the TypeError raised when `.then` is accessed
on `undefined`. -/
inductive Val where
  | num (n : Nat)
  | tyErr
deriving DecidableEq, Repr

/-- State of the output promise created by `new Promise(...)` inside
`all`: pending, fulfilled with the `result` array, or rejected. -/
inductive OState where
  | pending
  | fulfilled (l : List Nat)
  | rejected (e : Val)
deriving DecidableEq, Repr

/-- Whether an output-promise state is settled (fulfilled or rejected). -/
def OState.isSettled : OState → Bool
  | .pending => false
  | _ => true

/-- Whether an output-promise state is a rejection. -/
def OState.isRejected : OState → Bool
  | .rejected _ => true
  | _ => false

/-- Settlement schedule of one input promise: it fulfills with value `v`
on scheduling turn `turn`, rejects with reason `e` on turn `turn`, or
never settles.  Turn `0` is the turn on which `all` itself is called,
so `fulfillAt 0 v` models an input already fulfilled at call time. -/
inductive Settle where
  | fulfillAt (turn : Nat) (v : Nat)
  | rejectAt (turn : Nat) (e : Val)
  | never
deriving DecidableEq, Repr

/-- The turn on which an input settles, if it ever does. -/
def settleTurn : Settle → Option Nat
  | .fulfillAt t _ => some t
  | .rejectAt t _ => some t
  | .never => none

/-- The turn on which the one-argument `then` callback registered on an
input runs: one turn after the input fulfills (host promises defer
reactions to a strictly later turn, also for already-settled promises).
A rejected or never-settling input runs no callback, because the source
registers no rejection handler. -/
def cbTurn : Settle → Option Nat
  | .fulfillAt t _ => some (t + 1)
  | .rejectAt _ _ => none
  | .never => none

/-- True when the schedule is a rejection. -/
def Settle.isReject : Settle → Bool
  | .rejectAt _ _ => true
  | _ => false

/-- True when the schedule is a fulfillment. -/
def Settle.isFulfill : Settle → Bool
  | .fulfillAt _ _ => true
  | _ => false

/-- The mutable state captured by the executor closure of `all`:
`counter`, `result`, and the state of the output promise the `fulfill`
capability acts on. -/
structure AllState where
  counter : Nat
  result : List Nat
  out : OState
deriving DecidableEq, Repr

/-- Executor entry state: `let counter = 0; let result = [];` and a
freshly allocated pending output promise. -/
def startState : AllState := ⟨0, [], .pending⟩

/-- The `fulfill` capability handed to the executor by the Promise
constructor: it settles the output promise with the given value if it
is still pending, and is a no-op on an already settled promise. -/
def fulfillCap (l : List Nat) : OState → OState
  | .pending => .fulfilled l
  | s => s

/-- The body of each arrow callback in the source:
`counter++; result.push(res); if(counter>=2) fulfill(result);`. -/
def thenCb (res : Nat) (st : AllState) : AllState :=
  let counter := st.counter + 1
  let result := st.result ++ [res]
  { counter := counter
    result := result
    out := if counter ≥ 2 then fulfillCap result st.out else st.out }

/-- Run a list of fulfillment-callback invocations, in scheduler order,
from the executor entry state. -/
def runEvents (evs : List Nat) : AllState :=
  evs.foldl (fun st v => thenCb v st) startState

/-- The fulfillment values delivered to the combinator's callbacks, in
the order the scheduler runs them: a callback with an earlier run turn
goes first, and callbacks runnable on the same turn run in listener
registration order (`p1` before `p2`).  Rejections contribute nothing:
no rejection handler was registered. -/
def eventsOf (s1 s2 : Settle) : List Nat :=
  match s1, s2 with
  | .fulfillAt t1 v1, .fulfillAt t2 v2 =>
      if t2 + 1 < t1 + 1 then [v2, v1] else [v1, v2]
  | .fulfillAt _ v1, _ => [v1]
  | _, .fulfillAt _ v2 => [v2]
  | _, _ => []

/-- The full run of `all p1 p2` under the given settlement schedules. -/
def runAll (s1 s2 : Settle) : AllState :=
  runEvents (eventsOf s1 s2)

/-- The eventual state of the output promise of `all p1 p2`. -/
def allOut (s1 s2 : Settle) : OState :=
  (runAll s1 s2).out

/-- The turn on which the output promise of `all` settles, if it ever
does: the run turn of the later of the two fulfillment callbacks, since
`fulfill` is only invoked once `counter` reaches 2. -/
def outSettleTurn (s1 s2 : Settle) : Option Nat :=
  match cbTurn s1, cbTurn s2 with
  | some a, some b => some (max a b)
  | _, _ => none

/-- Arguments of one `p.then(...)` call made by the executor: which
handler slots were passed.  The source calls `then` with a single
fulfillment callback and no rejection callback. -/
structure ThenArgs where
  hasOnFulfilled : Bool
  hasOnRejected : Bool
deriving DecidableEq, Repr

/-- The listener registrations the executor performs, in program order:
`p1.then((res)=>{...})` then `p2.then((res)=>{...})`, each with a
fulfillment handler only.  Registration is unconditional: it does not
depend on whether the input is already settled. -/
def registrations : List (Fin 2 × ThenArgs) :=
  [(0, ⟨true, false⟩), (1, ⟨true, false⟩)]

/-- Number of fulfillment listeners `all` registers on input `i`. -/
def fulfillListenerCount (i : Fin 2) : Nat :=
  (registrations.filter (fun r => r.1 == i && r.2.hasOnFulfilled)).length

/-- Number of rejection listeners `all` registers on input `i`. -/
def rejectListenerCount (i : Fin 2) : Nat :=
  (registrations.filter (fun r => r.1 == i && r.2.hasOnRejected)).length

/-- An argument of a call to `all` under JS calling conventions: either
an actual promise (with its settlement schedule) or `undefined`, the
value a missing argument takes. -/
inductive Input where
  | prom (s : Settle)
  | undef
deriving DecidableEq, Repr

/-- The synchronous exception, if any, raised while the executor
registers listeners: accessing `.then` of `undefined` throws a
TypeError; `p1.then` is evaluated before `p2.then`. -/
def executorThrow : Input → Input → Option Val
  | .undef, _ => some .tyErr
  | .prom _, .undef => some .tyErr
  | .prom _, .prom _ => none

/-- Result of the call `all(i1, i2)` as seen by the caller: the call
either returns the output promise (described by its eventual state) or
lets an exception escape. -/
inductive CallResult where
  | returns (o : OState)
  | throws (e : Val)
deriving DecidableEq, Repr

/-- The eventual output state when registration succeeds; irrelevant
(pending) when the executor throws before the schedules can matter. -/
def scheduledOut : Input → Input → OState
  | .prom s1, .prom s2 => allOut s1 s2
  | _, _ => .pending

/-- Host `new Promise(executor)` semantics: the executor runs
synchronously; if it throws, the constructor catches the exception and
rejects the new promise with it — the exception never escapes the
constructor call. -/
def promiseCtor (exc : Option Val) (eventual : OState) : CallResult :=
  match exc with
  | some e => .returns (.rejected e)
  | none => .returns eventual

/-- The call `all(i1, i2)` under JS calling conventions, including the
Promise-constructor handling of synchronous executor exceptions. -/
def allJS (i1 i2 : Input) : CallResult :=
  promiseCtor (executorThrow i1 i2) (scheduledOut i1 i2)

/-! ### Helper lemmas -/

/-- Computation of `allOut` when both inputs fulfill: the result list is
in callback arrival order. -/
lemma allOut_fulfill_fulfill (t1 v1 t2 v2 : Nat) :
    allOut (.fulfillAt t1 v1) (.fulfillAt t2 v2) =
      .fulfilled (if t2 + 1 < t1 + 1 then [v2, v1] else [v1, v2]) := by
  unfold allOut runAll eventsOf
  by_cases h : t2 + 1 < t1 + 1
  · simp only [if_pos h]
    rfl
  · simp only [if_neg h]
    rfl

/-- A settled output promise is never changed by a later run of the
source's `then` callback. -/
lemma thenCb_out_of_settled (v : Nat) (st : AllState)
    (h : st.out.isSettled = true) : (thenCb v st).out = st.out := by
  have hout : (thenCb v st).out =
      if st.counter + 1 ≥ 2 then fulfillCap (st.result ++ [v]) st.out
      else st.out := rfl
  rw [hout]
  split
  · cases hs : st.out with
    | pending => rw [hs] at h; simp [OState.isSettled] at h
    | fulfilled l => rfl
    | rejected e => rfl
  · rfl

/-- Folding further callbacks over a state whose output promise is
settled leaves the output promise unchanged. -/
lemma foldl_out_of_settled (post : List Nat) :
    ∀ st : AllState, st.out.isSettled = true →
      (post.foldl (fun s v => thenCb v s) st).out = st.out := by
  induction post with
  | nil => intro st _; rfl
  | cons v vs ih =>
      intro st h
      have h1 : (thenCb v st).out = st.out := thenCb_out_of_settled v st h
      have h2 : (thenCb v st).out.isSettled = true := by rw [h1]; exact h
      calc ((v :: vs).foldl (fun s w => thenCb w s) st).out
          = (vs.foldl (fun s w => thenCb w s) (thenCb v st)).out := rfl
        _ = (thenCb v st).out := ih (thenCb v st) h2
        _ = st.out := h1

/-- The source's callback never rejects the output promise. -/
lemma thenCb_not_rejected (v : Nat) (st : AllState)
    (h : st.out.isRejected = false) : (thenCb v st).out.isRejected = false := by
  have hout : (thenCb v st).out =
      if st.counter + 1 ≥ 2 then fulfillCap (st.result ++ [v]) st.out
      else st.out := rfl
  rw [hout]
  split
  · cases hs : st.out with
    | pending => rfl
    | fulfilled l => rfl
    | rejected e => rw [hs] at h; simp [OState.isRejected] at h
  · exact h

/-- Unless both inputs fulfill, `counter` never reaches 2 and the
output stays pending. -/
lemma allOut_pending_cases (s1 s2 : Settle)
    (h : s1.isFulfill = false ∨ s2.isFulfill = false) :
    allOut s1 s2 = .pending := by
  cases s1 <;> cases s2 <;> simp [Settle.isFulfill] at h <;> rfl

/-- A rejecting schedule is not a fulfilling one. -/
lemma isFulfill_false_of_isReject {s : Settle} (h : s.isReject = true) :
    s.isFulfill = false := by
  cases s <;> simp [Settle.isReject, Settle.isFulfill] at h ⊢

/-- No run of the combinator's callbacks ever rejects the output. -/
lemma runEvents_not_rejected (evs : List Nat) :
    (runEvents evs).out.isRejected = false := by
  unfold runEvents
  have main : ∀ st : AllState, st.out.isRejected = false →
      (evs.foldl (fun s v => thenCb v s) st).out.isRejected = false := by
    induction evs with
    | nil => intro st h; exact h
    | cons v vs ih =>
        intro st h
        exact ih (thenCb v st) (thenCb_not_rejected v st h)
  exact main startState rfl

end Workshop

namespace Workshop

/-! ### Claims -/

/-- C1 counterexample: with inputs[0] fulfilling with 1 on turn 1 and
inputs[1] fulfilling with 2 on turn 0, the output fulfills with
`[2, 1]`, not with the index-ordered `[1, 2]` the claim demands. -/
theorem c1_counterexample :
    allOut (.fulfillAt 1 1) (.fulfillAt 0 2) = .fulfilled [2, 1] ∧
      allOut (.fulfillAt 1 1) (.fulfillAt 0 2) ≠ .fulfilled [1, 2] := by
  constructor
  · rfl
  · decide

/-- C1 (amended): when both inputs fulfill, the output fulfills with a
length-2 sequence holding both fulfillment values, but in settlement
arrival order (the input whose callback runs first contributes the
first slot; registration order breaks same-turn ties), not in index
order. -/
theorem c1_arrival_order (t1 v1 t2 v2 : Nat) :
    allOut (.fulfillAt t1 v1) (.fulfillAt t2 v2) =
      .fulfilled (if t2 + 1 < t1 + 1 then [v2, v1] else [v1, v2]) :=
  allOut_fulfill_fulfill t1 v1 t2 v2

/-- C2 counterexample: inputs[0] rejects with error 3 on turn 0 while
inputs[1] fulfills, yet the output does not reject with that error — it
stays pending forever. -/
theorem c2_counterexample :
    allOut (.rejectAt 0 (.num 3)) (.fulfillAt 0 1) = .pending ∧
      allOut (.rejectAt 0 (.num 3)) (.fulfillAt 0 1) ≠ .rejected (.num 3) := by
  constructor
  · rfl
  · decide

/-- C2 (amended): if any input rejects, the output never settles at
all — no rejection handler is registered, `counter` never reaches 2,
and the output remains pending forever; the input's error is not
forwarded. -/
theorem c2_reject_pends (s1 s2 : Settle)
    (h : s1.isReject = true ∨ s2.isReject = true) :
    allOut s1 s2 = .pending :=
  allOut_pending_cases s1 s2
    (h.imp isFulfill_false_of_isReject isFulfill_false_of_isReject)

/-- C2 witness: concrete application with inputs[1] rejecting. -/
theorem c2_reject_pends_witness :
    allOut (.fulfillAt 0 1) (.rejectAt 2 (.num 9)) = .pending :=
  c2_reject_pends (.fulfillAt 0 1) (.rejectAt 2 (.num 9)) (Or.inr rfl)

/-- C3: once the output promise is settled, running any further
combinator callbacks (later settlements of remaining inputs) leaves the
delivered result unchanged — the combinator transitions to a final
state at most once, and the callbacks are total (no throw). -/
theorem c3_settle_once (pre post : List Nat)
    (h : (runEvents pre).out.isSettled = true) :
    (runEvents (pre ++ post)).out = (runEvents pre).out := by
  unfold runEvents at *
  rw [List.foldl_append]
  exact foldl_out_of_settled post _ h

/-- C3 witness: after the two fulfillments `[1, 2]` settle the output,
a further callback run changes nothing. -/
theorem c3_settle_once_witness :
    (runEvents [1, 2]).out.isSettled = true ∧
      (runEvents ([1, 2] ++ [3])).out = (runEvents [1, 2]).out :=
  ⟨by decide, c3_settle_once [1, 2] [3] (by decide)⟩

/-- C4: whenever the output settles, it settles on a strictly positive
turn (never synchronously on turn 0, the turn of the `all` call), and
strictly after the settlement turn of every input — in particular after
the deciding (last-settling) input — and that settlement is a
fulfillment. -/
theorem c4_async_settlement (s1 s2 : Settle) (t : Nat)
    (h : outSettleTurn s1 s2 = some t) :
    0 < t ∧
      (∀ d, settleTurn s1 = some d ∨ settleTurn s2 = some d → d < t) ∧
      ∃ l, allOut s1 s2 = .fulfilled l := by
  cases s1 with
  | fulfillAt t1 v1 =>
      cases s2 with
      | fulfillAt t2 v2 =>
          simp only [outSettleTurn, cbTurn, Option.some.injEq] at h
          refine ⟨?_, ?_, ?_⟩
          · omega
          · intro d hd
            simp only [settleTurn, Option.some.injEq] at hd
            omega
          · exact ⟨_, allOut_fulfill_fulfill t1 v1 t2 v2⟩
      | rejectAt t2 e2 => simp [outSettleTurn, cbTurn] at h
      | never => simp [outSettleTurn, cbTurn] at h
  | rejectAt t1 e1 => simp [outSettleTurn, cbTurn] at h
  | never => simp [outSettleTurn, cbTurn] at h

/-- C4 witness: both inputs already settled at call time (turn 0); the
output settles on turn 1, strictly after the call and after each
input's settlement turn. -/
theorem c4_async_settlement_witness :
    0 < 1 ∧
      (∀ d, settleTurn (.fulfillAt 0 5) = some d ∨
          settleTurn (.fulfillAt 0 7) = some d → d < 1) ∧
      ∃ l, allOut (.fulfillAt 0 5) (.fulfillAt 0 7) = .fulfilled l :=
  c4_async_settlement (.fulfillAt 0 5) (.fulfillAt 0 7) 1 rfl

/-- C5 counterexample: the combinator registers no rejection listener
on inputs[0] (the source passes a single callback to `then`), so the
count is 0, not the claimed exactly 1. -/
theorem c5_counterexample : rejectListenerCount 0 ≠ 1 := by decide

/-- C5 (amended): on each input handle the combinator registers exactly
one fulfillment listener and zero rejection listeners, unconditionally
(the registration does not depend on whether the handle is already
settled). -/
theorem c5_listener_counts (i : Fin 2) :
    fulfillListenerCount i = 1 ∧ rejectListenerCount i = 0 := by
  fin_cases i <;> exact ⟨rfl, rfl⟩

/-- C6 counterexample: both inputs reject on turn 0 (errors 7 and 8);
the output does not reject with the first-processed error 7 — it stays
pending. -/
theorem c6_counterexample :
    allOut (.rejectAt 0 (.num 7)) (.rejectAt 0 (.num 8)) = .pending ∧
      allOut (.rejectAt 0 (.num 7)) (.rejectAt 0 (.num 8)) ≠
        .rejected (.num 7) := by
  constructor
  · rfl
  · decide

/-- C6 (amended): when two inputs reject — on whatever turns and with
whatever errors — the output rejects with neither of them: since no
rejection handler is registered, the output remains pending forever. -/
theorem c6_two_rejections_pend (t1 t2 : Nat) (e1 e2 : Val) :
    allOut (.rejectAt t1 e1) (.rejectAt t2 e2) = .pending := rfl

/-- C7 counterexample: invoking `all` with no arguments (the nearest
representable empty-collection call: both parameters are `undefined`)
makes `p1.then` throw a TypeError, which the Promise constructor turns
into a rejection — the output does not fulfill with an empty
sequence. -/
theorem c7_counterexample :
    allJS .undef .undef ≠ .returns (.fulfilled []) := by decide

/-- C7 (amended): `all` has fixed arity two and no empty-collection
case; called with no arguments it returns a promise rejected with the
TypeError raised while registering the first listener, rather than
fulfilling with an empty sequence. -/
theorem c7_no_empty_case :
    allJS .undef .undef = .returns (.rejected .tyErr) := rfl

/-- C8: with inputs[0] already fulfilled with 1 and inputs[1] already
fulfilled with 2 at call time, the output fulfills with `[1, 2]` (the
two callbacks become runnable on the same turn and run in registration
order). -/
theorem c8_concrete_scenario :
    allOut (.fulfillAt 0 1) (.fulfillAt 0 2) = .fulfilled [1, 2] := rfl

/-- C9: a synchronous exception raised while the executor registers
listeners is caught by the Promise constructor and routed into the
output's rejection path, and the call to `all` never lets an exception
escape. -/
theorem c9_executor_throw_routed (i1 i2 : Input) :
    (∀ e, allJS i1 i2 ≠ .throws e) ∧
      ∀ e, executorThrow i1 i2 = some e →
        allJS i1 i2 = .returns (.rejected e) := by
  constructor
  · intro e
    cases i1 <;> cases i2 <;> simp [allJS, promiseCtor, executorThrow]
  · intro e he
    unfold allJS
    rw [he]
    rfl

/-- C9 witness: with the first argument `undefined` and the second a
real promise, the registration throw is routed into rejection and
nothing escapes. -/
theorem c9_executor_throw_routed_witness :
    (∀ e, allJS .undef (.prom .never) ≠ .throws e) ∧
      allJS .undef (.prom .never) = .returns (.rejected .tyErr) :=
  ⟨(c9_executor_throw_routed .undef (.prom .never)).1,
    (c9_executor_throw_routed .undef (.prom .never)).2 .tyErr rfl⟩

/-- C10: for every pair of promise inputs the combinator never rejects
its output: the output is fulfilled exactly when both inputs fulfill,
and remains pending whenever either input rejects or never settles. -/
theorem c10_never_rejects (s1 s2 : Settle) :
    (allOut s1 s2).isRejected = false ∧
      ((∃ l, allOut s1 s2 = .fulfilled l) ↔
        s1.isFulfill = true ∧ s2.isFulfill = true) := by
  constructor
  · exact runEvents_not_rejected (eventsOf s1 s2)
  · constructor
    · intro hl
      by_cases h1 : s1.isFulfill = true
      · by_cases h2 : s2.isFulfill = true
        · exact ⟨h1, h2⟩
        · obtain ⟨l, hl⟩ := hl
          rw [allOut_pending_cases s1 s2 (Or.inr (by simpa using h2))] at hl
          exact OState.noConfusion hl
      · obtain ⟨l, hl⟩ := hl
        rw [allOut_pending_cases s1 s2 (Or.inl (by simpa using h1))] at hl
        exact OState.noConfusion hl
    · rintro ⟨h1, h2⟩
      cases s1 with
      | fulfillAt t1 v1 =>
          cases s2 with
          | fulfillAt t2 v2 => exact ⟨_, allOut_fulfill_fulfill t1 v1 t2 v2⟩
          | rejectAt t2 e2 => simp [Settle.isFulfill] at h2
          | never => simp [Settle.isFulfill] at h2
      | rejectAt t1 e1 => simp [Settle.isFulfill] at h1
      | never => simp [Settle.isFulfill] at h1

/-- C10 witness: concrete pair — one rejecting input leaves the output
unrejected and unfulfilled. -/
theorem c10_never_rejects_witness :
    (allOut (.rejectAt 0 (.num 4)) (.fulfillAt 1 6)).isRejected = false ∧
      ((∃ l, allOut (.rejectAt 0 (.num 4)) (.fulfillAt 1 6) = .fulfilled l) ↔
        (Settle.rejectAt 0 (.num 4)).isFulfill = true ∧
          (Settle.fulfillAt 1 6).isFulfill = true) :=
  c10_never_rejects (.rejectAt 0 (.num 4)) (.fulfillAt 1 6)

end Workshop
